import Mathlib

/-!
Verification of the UNVMe client library interface (`src/unvme.c`) and the
`nvme_set_features` test program, as a shallow embedding in Lean 4.

Conventions of the embedding:
* C unsigned machine integers become `Nat` (with an explicit `% 2 ^ 32`
  where a narrowing conversion happens in the C code); C `int` values that
  can be negative become `Int`.
* Code from `unvme_core.c` / `nvme.c` (not part of the sources being
  verified) is treated as an external collaborator: either it is abstracted
  into a function parameter, or, where a claim is about its contract, it is
  modelled from the specification and marked as such in its doc comment.
* The stateful loop of `unvme_translate_region` is embedded as a fuelled
  step interpreter over an explicit state record; the outcomes of the
  external submission (`unvme_rw_extended`) and poll (`unvme_do_poll`)
  calls are supplied by oracle functions `subOk` / `pollRes`.
-/

/-- NVMe flush opcode (value 0x00, from the NVMe wire contract). -/
def NVME_CMD_FLUSH : Nat := 0

/-- NVMe write opcode (value 0x01, from the NVMe wire contract). -/
def NVME_CMD_WRITE : Nat := 1

/-- NVMe read opcode (value 0x02, from the NVMe wire contract). -/
def NVME_CMD_READ : Nat := 2

/-- The fields of `unvme_ns_t` that `unvme_translate_region` reads:
maximum blocks per I/O, maximum I/O per queue, and block size. -/
structure UnvmeNs where
  maxbpio : Nat
  maxiopq : Nat
  blocksize : Nat
  deriving DecidableEq, Repr

/-- One entry of the `desc` array malloc-ed by `unvme_translate_region`:
either never written (malloc garbage), written NULL (a failed submission or
a completed slot), or holding the live descriptor returned by a successful
`unvme_rw_extended` call (identified by its submission number). -/
inductive Slot where
  | uninit
  | null
  | live (id : Nat)
  deriving DecidableEq, Repr

/-- One call to `unvme_rw_extended` made by `unvme_translate_region`:
the opcode, the byte offset added to `buf`, the `slba`, `nlb` and
config-page flag arguments. -/
structure SubEvent where
  opc : Nat
  offset : Nat
  slba : Nat
  nlb : Nat
  flag : Nat
  deriving DecidableEq, Repr

/-- Memory-safety / termination outcomes the C code does not defend
against: reading `desc[j]` past the end of the malloc-ed array, reading a
never-written entry, and a loop that does not terminate within the fuel. -/
inductive TRErr where
  | oob
  | uninitRead
  | fuelOut
  deriving DecidableEq, Repr

/-- The local state of `unvme_translate_region`: the `desc` array, the
request counter `i`, `pending`, the round-robin index `j`, `readOffset`,
plus counters for the two oracles and the trace of submissions made. -/
structure TRState where
  desc : List Slot
  i : Nat
  pending : Nat
  j : Nat
  readOffset : Nat
  subCount : Nat
  pollCount : Nat
  trace : List SubEvent
  deriving DecidableEq, Repr

/-- One `unvme_rw_extended` call: the oracle `subOk` decides whether the
submission returns a live descriptor or NULL; the call is appended to the
trace either way. -/
def doSubmit (subOk : Nat → Bool) (opc offset slba nlb flag : Nat)
    (s : TRState) : Slot × TRState :=
  (if subOk s.subCount then Slot.live s.subCount else Slot.null,
   { s with subCount := s.subCount + 1,
            trace := s.trace ++ [⟨opc, offset, slba, nlb, flag⟩] })

/-- Line 266 of `unvme.c`:
`nrequests = (nlb / ns->maxbpio) + !!(nlb % ns->maxbpio) + 1`. -/
def nrequests (ns : UnvmeNs) (nlb : Nat) : Nat :=
  nlb / ns.maxbpio + (if nlb % ns.maxbpio = 0 then 0 else 1) + 1

/-- The block-count ternary of lines 277/295 of `unvme.c`:
`(i == nrequests-1 && nlb % ns->maxbpio) ? nlb % ns->maxbpio : ns->maxbpio`. -/
def readNlb (ns : UnvmeNs) (nreq nlb i : Nat) : Nat :=
  if i = nreq - 1 ∧ nlb % ns.maxbpio ≠ 0 then nlb % ns.maxbpio else ns.maxbpio

/-- Lines 266-271 of `unvme.c`: allocate the `desc` window (all entries
malloc garbage), submit the config-page write into `desc[0]`, and set the
loop counter `i` to 1. -/
def initState (ns : UnvmeNs) (subOk : Nat → Bool) (slba config_nlb : Nat) :
    TRState :=
  let s0 : TRState :=
    ⟨List.replicate ns.maxiopq Slot.uninit, 0, 0, 0, 0, 0, 0, []⟩
  let p := doSubmit subOk NVME_CMD_WRITE 0 slba config_nlb 1 s0
  { p.2 with desc := p.2.desc.set 0 p.1, i := 1 }

/-- Lines 272-280 of `unvme.c`: `for (i = 1; i < ns->maxiopq; i++)` with
`break` once `i >= nrequests`, submitting a read of `readNlb` blocks into
`desc[i]` and advancing `readOffset`. The countdown argument only bounds
the recursion; it is instantiated with `ns.maxiopq`, which the loop bound
`i < ns.maxiopq` makes sufficient. -/
def fillLoop (ns : UnvmeNs) (subOk : Nat → Bool) (nreq slba nlb : Nat) :
    Nat → TRState → TRState
  | 0, s => s
  | n + 1, s =>
    if s.i < ns.maxiopq then
      if nreq ≤ s.i then s
      else
        let p := doSubmit subOk NVME_CMD_READ s.readOffset slba
          (readNlb ns nreq nlb s.i) 1 s
        fillLoop ns subOk nreq slba nlb n
          { p.2 with desc := p.2.desc.set s.i p.1,
                     i := s.i + 1,
                     readOffset := s.readOffset + ns.maxbpio * ns.blocksize }
    else s

/-- Line 307 of `unvme.c`: `if (++j == maxj) j = 0`. -/
def bumpJ (maxj : Nat) (s : TRState) : TRState :=
  { s with j := if s.j + 1 = maxj then 0 else s.j + 1 }

/-- One iteration of the do-while body, lines 286-307 of `unvme.c`.
Reading `desc[j]` outside the malloc-ed window is the out-of-bounds error;
reading a never-written entry is the uninitialised-read error. On a live
slot the poll oracle is consulted: on status 0,
either a further read is resubmitted into slot `j` (when `i < nrequests`)
or the slot is cleared and `pending` decremented. -/
def trStep (ns : UnvmeNs) (subOk : Nat → Bool) (pollRes : Nat → Int)
    (nreq slba nlb maxj : Nat) (s : TRState) : Except TRErr TRState :=
  match s.desc.get? s.j with
  | none => .error .oob
  | some Slot.uninit => .error .uninitRead
  | some Slot.null => .ok (bumpJ maxj s)
  | some (Slot.live _) =>
    let s0 := { s with pollCount := s.pollCount + 1 }
    if pollRes s.pollCount = 0 then
      if s0.i < nreq then
        let p := doSubmit subOk NVME_CMD_READ s0.readOffset slba
          (readNlb ns nreq nlb s0.i) 1 s0
        .ok (bumpJ maxj
          { p.2 with desc := p.2.desc.set s0.j p.1,
                     i := s0.i + 1,
                     readOffset := s0.readOffset + ns.maxbpio * ns.blocksize })
      else
        .ok (bumpJ maxj
          { s0 with desc := s0.desc.set s0.j Slot.null,
                    pending := s0.pending - 1 })
    else .ok (bumpJ maxj s0)

/-- The do-while loop of lines 285-308 of `unvme.c`, fuelled. -/
def pollLoop (ns : UnvmeNs) (subOk : Nat → Bool) (pollRes : Nat → Int)
    (nreq slba nlb maxj : Nat) : Nat → TRState → Except TRErr TRState
  | 0, _ => .error .fuelOut
  | fuel + 1, s =>
    match trStep ns subOk pollRes nreq slba nlb maxj s with
    | .error e => .error e
    | .ok s2 =>
      if 0 < s2.pending then pollLoop ns subOk pollRes nreq slba nlb maxj fuel s2
      else .ok s2

/-- Lines 266-283 of `unvme.c`: the state at entry to the do-while loop:
config write in `desc[0]`, the window filled by the for loop,
`pending = i` and `j = 0`. -/
def startState (ns : UnvmeNs) (subOk : Nat → Bool)
    (slba nlb config_nlb : Nat) : TRState :=
  let sC := fillLoop ns subOk (nrequests ns nlb) slba nlb ns.maxiopq
    (initState ns subOk slba config_nlb)
  { sC with pending := sC.i, j := 0 }

/-- Line 284 of `unvme.c`:
`int maxj = (ns->maxbpio < nrequests) ? ns->maxbpio : nrequests`. -/
def maxjVal (ns : UnvmeNs) (nlb : Nat) : Nat :=
  if ns.maxbpio < nrequests ns nlb then ns.maxbpio else nrequests ns nlb

/-- Lines 263-312 of `unvme.c`: `unvme_translate_region`. The result is
the C return value together with the trace of `unvme_rw_extended` calls
made; the error cases are the executions the C code does not defend
against (out-of-bounds or uninitialised `desc[j]` reads, non-termination
within the fuel). -/
def unvme_translate_region (ns : UnvmeNs) (subOk : Nat → Bool)
    (pollRes : Nat → Int) (slba nlb config_nlb fuel : Nat) :
    Except TRErr (Int × List SubEvent) :=
  match pollLoop ns subOk pollRes (nrequests ns nlb) slba nlb
      (maxjVal ns nlb) fuel (startState ns subOk slba nlb config_nlb) with
  | .error e => .error e
  | .ok sE => .ok (0, sE.trace)

/-- Ceiling division, as the specification writes `ceil(nlb / maxbpio)`. -/
def ceilDiv (a b : Nat) : Nat := (a + b - 1) / b

/-- The k-th read submission (1-based k) that `unvme_translate_region`
makes: a vendor-extended read at byte offset
`(k-1) * maxbpio * blocksize`, of `readNlb` blocks, config-page flag 1. -/
def expectedRead (ns : UnvmeNs) (nreq slba nlb k : Nat) : SubEvent :=
  ⟨NVME_CMD_READ, (k - 1) * (ns.maxbpio * ns.blocksize), slba,
   readNlb ns nreq nlb k, 1⟩

/-- The submission trace after the config write and the first `m` reads. -/
def expectedTrace (ns : UnvmeNs) (slba nlb config_nlb m : Nat) :
    List SubEvent :=
  ⟨NVME_CMD_WRITE, 0, slba, config_nlb, 1⟩ ::
    (List.range m).map (fun k => expectedRead ns (nrequests ns nlb) slba nlb (k + 1))


/-- The loop invariant of the `unvme_translate_region` embedding: `i` stays
in `[1, nrequests]`, `readOffset` is `(i-1)` strides, and the submissions
made so far are the config write followed by the first `i-1` reads. -/
def TRInvCore (ns : UnvmeNs) (slba nlb config_nlb : Nat) (s : TRState) : Prop :=
  1 ≤ s.i ∧ s.i ≤ nrequests ns nlb ∧
  s.readOffset = (s.i - 1) * (ns.maxbpio * ns.blocksize) ∧
  s.trace = expectedTrace ns slba nlb config_nlb (s.i - 1)

/-- Modelled from the spec: the default timeout `UNVME_TIMEOUT` is a
session-wide constant declared in `unvme.h`, which is not among the
sources; only its identity matters to the claims, not its value. -/
def UNVME_TIMEOUT : Nat := 60

/-- Lines 125-128 of `unvme.c`: `unvme_aread` delegates to `unvme_rw`
with `NVME_CMD_READ`. The external `unvme_rw` (from `unvme_core.c`) is a
function parameter. -/
def unvme_aread {Ns Buf Desc : Type}
    (unvme_rw : Ns → Int → Nat → Buf → Nat → Nat → Option Desc)
    (ns : Ns) (qid : Int) (buf : Buf) (slba nlb : Nat) : Option Desc :=
  unvme_rw ns qid NVME_CMD_READ buf slba nlb

/-- Lines 139-143 of `unvme.c`: `unvme_awrite` delegates to `unvme_rw`
with `NVME_CMD_WRITE`. -/
def unvme_awrite {Ns Buf Desc : Type}
    (unvme_rw : Ns → Int → Nat → Buf → Nat → Nat → Option Desc)
    (ns : Ns) (qid : Int) (buf : Buf) (slba nlb : Nat) : Option Desc :=
  unvme_rw ns qid NVME_CMD_WRITE buf slba nlb

/-- Lines 158-162 of `unvme.c`: `unvme_atranslate` delegates to
`unvme_rw_extended` with `NVME_CMD_WRITE`, block count 1 and config-page
flag 1. The external `unvme_rw_extended` is a function parameter taking
(ns, qid, opcode, buf, slba, nlb, config-flag). -/
def unvme_atranslate {Ns Buf Desc : Type}
    (unvme_rw_extended : Ns → Int → Nat → Buf → Nat → Nat → Nat → Option Desc)
    (ns : Ns) (qid : Int) (buf : Buf) (slba : Nat) : Option Desc :=
  unvme_rw_extended ns qid NVME_CMD_WRITE buf slba 1 1

/-- Lines 174-178 of `unvme.c`: `unvme_atranslate_read` delegates to
`unvme_rw_extended` with `NVME_CMD_READ`, block count `nlb` and
config-page flag 1. -/
def unvme_atranslate_read {Ns Buf Desc : Type}
    (unvme_rw_extended : Ns → Int → Nat → Buf → Nat → Nat → Nat → Option Desc)
    (ns : Ns) (qid : Int) (buf : Buf) (slba nlb : Nat) : Option Desc :=
  unvme_rw_extended ns qid NVME_CMD_READ buf slba nlb 1

/-- Lines 214-222 of `unvme.c`: synchronous `unvme_read` submits through
`unvme_rw` and, if a descriptor came back, polls it once with
`UNVME_TIMEOUT`; otherwise it returns -1. The external poll
(`unvme_do_poll` of `unvme_core.c`) is the parameter `doPoll`. -/
def unvme_read {Ns Buf Desc : Type}
    (unvme_rw : Ns → Int → Nat → Buf → Nat → Nat → Option Desc)
    (doPoll : Desc → Nat → Int)
    (ns : Ns) (qid : Int) (buf : Buf) (slba nlb : Nat) : Int :=
  match unvme_rw ns qid NVME_CMD_READ buf slba nlb with
  | some desc => doPoll desc UNVME_TIMEOUT
  | none => -1

/-- Lines 243-252 of `unvme.c`: synchronous `unvme_write`, same shape as
`unvme_read` with `NVME_CMD_WRITE`. -/
def unvme_write {Ns Buf Desc : Type}
    (unvme_rw : Ns → Int → Nat → Buf → Nat → Nat → Option Desc)
    (doPoll : Desc → Nat → Int)
    (ns : Ns) (qid : Int) (buf : Buf) (slba nlb : Nat) : Int :=
  match unvme_rw ns qid NVME_CMD_WRITE buf slba nlb with
  | some desc => doPoll desc UNVME_TIMEOUT
  | none => -1

/-- Lines 224-232 of `unvme.c`: synchronous `unvme_flush` submits through
`unvme_aflush` (external, from `unvme_core.c`) and polls once with
`UNVME_TIMEOUT`; -1 when no descriptor came back. -/
def unvme_flush {Ns Desc : Type}
    (unvme_aflush : Ns → Int → Option Desc)
    (doPoll : Desc → Nat → Int)
    (ns : Ns) (qid : Int) : Int :=
  match unvme_aflush ns qid with
  | some desc => doPoll desc UNVME_TIMEOUT
  | none => -1

/-- The specification side of claim C4: an asynchronous submission result
followed by one poll with the default timeout, -1 when the submission
returned no descriptor. -/
def syncOfAsync {Desc : Type} (iod : Option Desc)
    (doPoll : Desc → Nat → Int) : Int :=
  match iod with
  | some d => doPoll d UNVME_TIMEOUT
  | none => -1

/-- The caller-visible part of an I/O descriptor for claim C3: whether its
queue slot is still reserved. -/
structure Iod where
  reserved : Bool
  deriving DecidableEq, Repr

/-- Modelled from the spec: `unvme_do_poll` is defined in `unvme_core.c`,
which is not among the sources; per the spec, poll returns 0 or a positive
device status code when the command completed within the timeout, freeing
the IOD, and -1 on timeout, leaving the command outstanding and the slot
reserved. `arrival = some st` means the device completed the command with
status `st` within this poll's timeout window; `arrival = none` means it
did not complete in time. -/
def unvme_do_poll (iod : Iod) (arrival : Option Nat) : Int × Iod :=
  match arrival with
  | some st => ((st : Int), ⟨false⟩)
  | none => (-1, iod)

/-- Lines 187-190 of `unvme.c`: `unvme_apoll` delegates to
`unvme_do_poll` with a NULL `cqe_cs`; the timeout argument is absorbed
into the `arrival` oracle of the modelled `unvme_do_poll`. -/
def unvme_apoll (iod : Iod) (timeout : Nat) (arrival : Option Nat) :
    Int × Iod :=
  unvme_do_poll iod arrival

/-- Whitespace as skipped by the `%x` conversion of `sscanf` and by
`strtol` (the less common C space characters are immaterial here). -/
def isSpaceC (c : Char) : Bool :=
  decide (c = ' ' ∨ c = '\t' ∨ c = '\n' ∨ c = '\r')

/-- Decimal digit. -/
def isDecDigit (c : Char) : Bool := decide ('0' ≤ c ∧ c ≤ '9')

/-- Octal digit. -/
def isOctDigit (c : Char) : Bool := decide ('0' ≤ c ∧ c ≤ '7')

/-- Hexadecimal digit, either case. -/
def isHexDigitC (c : Char) : Bool :=
  decide (('0' ≤ c ∧ c ≤ '9') ∨ ('a' ≤ c ∧ c ≤ 'f') ∨ ('A' ≤ c ∧ c ≤ 'F'))

/-- Value of a decimal digit. -/
def decVal (c : Char) : Nat := c.toNat - '0'.toNat

/-- Value of a hexadecimal digit of either case. -/
def hexVal (c : Char) : Nat :=
  if isDecDigit c then c.toNat - '0'.toNat
  else if 'a' ≤ c ∧ c ≤ 'f' then c.toNat - 'a'.toNat + 10
  else c.toNat - 'A'.toNat + 10

/-- Skip leading whitespace. -/
def skipWs : List Char → List Char
  | c :: rest => if isSpaceC c then skipWs rest else c :: rest
  | [] => []

/-- Consume a maximal run of digits of the given base, accumulating the
value; returns the value and the rest of the input. -/
def scanDigits (base : Nat) (isD : Char → Bool) (val : Char → Nat) :
    List Char → Nat → Nat × List Char
  | c :: rest, acc =>
    if isD c then scanDigits base isD val rest (acc * base + val c)
    else (acc, c :: rest)
  | [], acc => (acc, [])

/-- The `%x` conversion of `sscanf` as used on a PCI name string: skip
whitespace, accept an optional `0x`/`0X` prefix when a hex digit follows
(otherwise only the `0` is consumed, as in glibc), then a maximal run of
hex digits; the value is stored into a C `int`, modelled as the value
mod `2 ^ 32`. A leading sign is not modelled (the claims do not depend on
it). Returns `none` on a matching failure. -/
def scanHex (s : List Char) : Option (Nat × List Char) :=
  match skipWs s with
  | '0' :: 'x' :: c :: rest =>
    if isHexDigitC c then
      some ((scanDigits 16 isHexDigitC hexVal (c :: rest) 0).1 % 2 ^ 32,
            (scanDigits 16 isHexDigitC hexVal (c :: rest) 0).2)
    else some (0, 'x' :: c :: rest)
  | '0' :: 'X' :: c :: rest =>
    if isHexDigitC c then
      some ((scanDigits 16 isHexDigitC hexVal (c :: rest) 0).1 % 2 ^ 32,
            (scanDigits 16 isHexDigitC hexVal (c :: rest) 0).2)
    else some (0, 'X' :: c :: rest)
  | c :: rest =>
    if isHexDigitC c then
      some ((scanDigits 16 isHexDigitC hexVal (c :: rest) 0).1 % 2 ^ 32,
            (scanDigits 16 isHexDigitC hexVal (c :: rest) 0).2)
    else none
  | [] => none

/-- Match one literal (non-whitespace) format character, as `sscanf`
does for the `:`, `.` and `/` of the PCI name format. -/
def expectChar (c : Char) : List Char → Option (List Char)
  | d :: rest => if d = c then some rest else none
  | [] => none

/-- Line 54 of `unvme.c`: `sscanf(pciname, "%x:%x.%x/%x", ...)`,
successful exactly when all four conversions succeed (result 4). -/
def sscanfPci4 (s : List Char) : Option (Nat × Nat × Nat × Nat) :=
  match scanHex s with
  | none => none
  | some (b, s1) =>
    match expectChar ':' s1 with
    | none => none
    | some s2 =>
      match scanHex s2 with
      | none => none
      | some (d, s3) =>
        match expectChar '.' s3 with
        | none => none
        | some s4 =>
          match scanHex s4 with
          | none => none
          | some (f, s5) =>
            match expectChar '/' s5 with
            | none => none
            | some s6 =>
              match scanHex s6 with
              | none => none
              | some (n, _) => some (b, d, f, n)

/-- Line 55 of `unvme.c`: `sscanf(pciname, "%x:%x.%x", ...)`, successful
exactly when all three conversions succeed (result 3). -/
def sscanfPci3 (s : List Char) : Option (Nat × Nat × Nat) :=
  match scanHex s with
  | none => none
  | some (b, s1) =>
    match expectChar ':' s1 with
    | none => none
    | some s2 =>
      match scanHex s2 with
      | none => none
      | some (d, s3) =>
        match expectChar '.' s3 with
        | none => none
        | some s4 =>
          match scanHex s4 with
          | none => none
          | some (f, _) => some (b, d, f)

/-- Line 59 of `unvme.c`: `int pci = (b << 16) + (d << 8) + f`, with the
C `int` arithmetic modelled as wrapping mod `2 ^ 32`. -/
def pciPack (b d f : Nat) : Nat := (b * 65536 + d * 256 + f) % 2 ^ 32

/-- The observable outcome of `unvme_openq`: NULL from the qcount/qsize
validation (before the PCI name is ever parsed), NULL from the PCI-name
parse failure, or the delegation to the external `unvme_do_open`
(`unvme_core.c`) with the packed pci value, nsid, qcount and qsize. -/
inductive OpenResult where
  | rejected
  | badPci
  | opened (pci : Nat) (nsid : Nat) (qcount qsize : Int)
  deriving DecidableEq, Repr

/-- Lines 46-62 of `unvme.c`: `unvme_openq`. Validation first
(`qcount < 0 || qsize < 0 || qsize == 1`), then the two `sscanf` formats
in order, `nsid` defaulting to its initialiser 1 when the `/NSID` form
does not match, then the delegation to `unvme_do_open`. -/
def unvme_openq (pciname : List Char) (qcount qsize : Int) : OpenResult :=
  if qcount < 0 ∨ qsize < 0 ∨ qsize = 1 then .rejected
  else
    match sscanfPci4 pciname with
    | some (b, d, f, n) => .opened (pciPack b d f) n qcount qsize
    | none =>
      match sscanfPci3 pciname with
      | some (b, d, f) => .opened (pciPack b d f) 1 qcount qsize
      | none => .badPci

/-- Lines 69-72 of `unvme.c`: `unvme_open` delegates to `unvme_openq`
with `qcount = 0`, `qsize = 0`. -/
def unvme_open (pciname : List Char) : OpenResult :=
  unvme_openq pciname 0 0

/-- The `strtol(s, &s, 0)` of `nvme_set_features.c`: base-0 C semantics
(whitespace, optional sign, `0x` hex / leading-`0` octal / decimal),
returning the value and the unconsumed rest of the string (the final
position of `s`). When no conversion is possible the value is 0 and
nothing is consumed. Overflow clamping to LONG_MAX is not modelled (the
claims do not depend on it). -/
def strtol0 (s : List Char) : Int × List Char :=
  let s1 := skipWs s
  let sign : Int := match s1 with
    | '-' :: _ => -1
    | _ => 1
  let s2 : List Char := match s1 with
    | '-' :: r => r
    | '+' :: r => r
    | _ => s1
  match s2 with
  | '0' :: 'x' :: c :: rest =>
    if isHexDigitC c then
      (sign * ((scanDigits 16 isHexDigitC hexVal (c :: rest) 0).1 : Int),
       (scanDigits 16 isHexDigitC hexVal (c :: rest) 0).2)
    else (0, 'x' :: c :: rest)
  | '0' :: 'X' :: c :: rest =>
    if isHexDigitC c then
      (sign * ((scanDigits 16 isHexDigitC hexVal (c :: rest) 0).1 : Int),
       (scanDigits 16 isHexDigitC hexVal (c :: rest) 0).2)
    else (0, 'X' :: c :: rest)
  | '0' :: rest =>
    (sign * ((scanDigits 8 isOctDigit decVal rest 0).1 : Int),
     (scanDigits 8 isOctDigit decVal rest 0).2)
  | c :: rest =>
    if isDecDigit c then
      (sign * ((scanDigits 10 isDecDigit decVal (c :: rest) 0).1 : Int),
       (scanDigits 10 isDecDigit decVal (c :: rest) 0).2)
    else (0, s)
  | [] => (0, s)

/-- The argument-parsing idiom of `nvme_set_features.c`:
`v = strtol(s, &s, 0); if (*s) exit` - the string must be consumed
entirely. -/
def parseArgInt (a : String) : Option Int :=
  let p := strtol0 a.toList
  if p.2.isEmpty then some p.1 else none

/-- NVMe feature id 1 (arbitration), from the NVMe wire contract
(`nvme.h` is not among the sources). -/
def NVME_FEATURE_ARBITRATION : Nat := 1

/-- NVMe feature id 3 (LBA range), from the NVMe wire contract. -/
def NVME_FEATURE_LBA_RANGE : Nat := 3

/-- NVMe feature id 11 (async event configuration), from the NVMe wire
contract. -/
def NVME_FEATURE_ASYNC_EVENT : Nat := 11

/-- Modelled from the spec: `nvme_acmd_get_features` (defined in
`nvme.c`, not among the sources) issues the admin command and stores the
device's reply into `*res`; `res` is an OUT parameter only, so the value
passed in is overwritten by the reply. The model returns the final value
of `res`. -/
def nvme_acmd_get_features (reply : Nat) (nsid fid : Int) (res : Nat) :
    Nat := reply

/-- The default used when reading an `argv` entry of the modelled
command line. -/
def emptyArg : String := ""

/-- Lines 43-80 of `nvme_set_features.c`: argument validation and parsing
of `main`, up to and including the `nvme_acmd_get_features` call. Returns
`none` when the program exits early (bad argc, unparsed argument,
unsupported feature id), otherwise `(nsid, fid, res before the call,
res after the call)`. Note line 64 of the source: `res` is parsed from
`argv[3]` (the FEATURE_ID argument), and `argv[4]` is never read. -/
def set_features_main (argv : List String) (reply : Nat) :
    Option (Int × Int × Nat × Nat) :=
  if argv.length < 5 then none
  else
    match parseArgInt (argv.getD 2 emptyArg) with
    | none => none
    | some nsid =>
      match parseArgInt (argv.getD 3 emptyArg) with
      | none => none
      | some fid =>
        match parseArgInt (argv.getD 3 emptyArg) with
        | none => none
        | some resv =>
          if fid < (NVME_FEATURE_ARBITRATION : Int) ∨
             (NVME_FEATURE_ASYNC_EVENT : Int) < fid ∨
             fid = (NVME_FEATURE_LBA_RANGE : Int) then none
          else
            let res0 : Nat := (resv % (2 ^ 32 : Int)).toNat
            some (nsid, fid, res0, nvme_acmd_get_features reply nsid fid res0)

/-- Sample PCI name with an explicit namespace id, for witnesses. -/
def samplePci4 : List Char := "01:00.0/2".toList

/-- Sample PCI name without a namespace id, for witnesses. -/
def samplePci3 : List Char := "1f:02.3".toList

/-- Sample command line of the set-features test, for witnesses. -/
def sampleArgv : List String := ["p", "01:00.0", "1", "6", "99"]

@[simp] lemma bumpJ_desc (m : Nat) (s : TRState) : (bumpJ m s).desc = s.desc := rfl

@[simp] lemma bumpJ_i (m : Nat) (s : TRState) : (bumpJ m s).i = s.i := rfl

@[simp] lemma bumpJ_pending (m : Nat) (s : TRState) :
    (bumpJ m s).pending = s.pending := rfl

@[simp] lemma bumpJ_readOffset (m : Nat) (s : TRState) :
    (bumpJ m s).readOffset = s.readOffset := rfl

@[simp] lemma bumpJ_trace (m : Nat) (s : TRState) : (bumpJ m s).trace = s.trace := rfl

/-- Appending the `i`-th read submission to the trace of the first `i-1`
reads yields the trace of the first `i` reads. -/
lemma expectedTrace_snoc (ns : UnvmeNs) (slba nlb config_nlb i : Nat)
    (hi : 1 ≤ i) :
    expectedTrace ns slba nlb config_nlb (i - 1) ++
      [⟨NVME_CMD_READ, (i - 1) * (ns.maxbpio * ns.blocksize), slba,
        readNlb ns (nrequests ns nlb) nlb i, 1⟩] =
    expectedTrace ns slba nlb config_nlb i := by
  obtain ⟨k, rfl⟩ : ∃ k, i = k + 1 := ⟨i - 1, by omega⟩
  simp [expectedTrace, List.range_succ, expectedRead]

/-- A state whose `i`, `readOffset` and `trace` fields record one more
read submission than `s` satisfies the invariant whenever `s` does and a
read remains to be submitted. -/
lemma TRInvCore_read_step (ns : UnvmeNs) (slba nlb config_nlb : Nat)
    (s t : TRState) (h : TRInvCore ns slba nlb config_nlb s)
    (hlt : s.i < nrequests ns nlb)
    (hi : t.i = s.i + 1)
    (ho : t.readOffset = s.readOffset + ns.maxbpio * ns.blocksize)
    (ht : t.trace = s.trace ++
      [⟨NVME_CMD_READ, s.readOffset, slba,
        readNlb ns (nrequests ns nlb) nlb s.i, 1⟩]) :
    TRInvCore ns slba nlb config_nlb t := by
  obtain ⟨h1, h2, h3, h4⟩ := h
  refine ⟨by omega, by omega, ?_, ?_⟩
  · rw [ho, hi, h3, show s.i + 1 - 1 = (s.i - 1) + 1 from by omega, Nat.succ_mul]
  · rw [ht, hi, h4, h3, show s.i + 1 - 1 = s.i from rfl]
    exact expectedTrace_snoc ns slba nlb config_nlb s.i h1

/-- The window-fill loop preserves the invariant. -/
lemma fillLoop_inv (ns : UnvmeNs) (subOk : Nat → Bool)
    (slba nlb config_nlb : Nat) :
    ∀ (n : Nat) (s : TRState), TRInvCore ns slba nlb config_nlb s →
      TRInvCore ns slba nlb config_nlb
        (fillLoop ns subOk (nrequests ns nlb) slba nlb n s) := by
  intro n
  induction n with
  | zero => intro s h; exact h
  | succ m ih =>
    intro s h
    rw [fillLoop]
    by_cases hlt : s.i < ns.maxiopq
    · rw [if_pos hlt]
      by_cases hge : nrequests ns nlb ≤ s.i
      · rw [if_pos hge]; exact h
      · rw [if_neg hge]
        exact ih _ (TRInvCore_read_step ns slba nlb config_nlb s _ h
          (by omega) rfl rfl rfl)
    · rw [if_neg hlt]; exact h

@[simp] lemma doSubmit_snd_i (subOk : Nat → Bool) (opc off slba nlb flag : Nat)
    (s : TRState) : (doSubmit subOk opc off slba nlb flag s).2.i = s.i := rfl

@[simp] lemma doSubmit_snd_pending (subOk : Nat → Bool)
    (opc off slba nlb flag : Nat) (s : TRState) :
    (doSubmit subOk opc off slba nlb flag s).2.pending = s.pending := rfl

@[simp] lemma doSubmit_snd_readOffset (subOk : Nat → Bool)
    (opc off slba nlb flag : Nat) (s : TRState) :
    (doSubmit subOk opc off slba nlb flag s).2.readOffset = s.readOffset := rfl

@[simp] lemma doSubmit_snd_trace (subOk : Nat → Bool)
    (opc off slba nlb flag : Nat) (s : TRState) :
    (doSubmit subOk opc off slba nlb flag s).2.trace =
      s.trace ++ [⟨opc, off, slba, nlb, flag⟩] := rfl

/-- One iteration of the poll loop preserves the invariant, and can only
drive `pending` to zero once all `nrequests` submissions are made. -/
lemma trStep_inv (ns : UnvmeNs) (subOk : Nat → Bool) (pollRes : Nat → Int)
    (slba nlb config_nlb maxj : Nat) (s s2 : TRState)
    (hinv : TRInvCore ns slba nlb config_nlb s) (hp : 1 ≤ s.pending)
    (hstep : trStep ns subOk pollRes (nrequests ns nlb) slba nlb maxj s =
      .ok s2) :
    TRInvCore ns slba nlb config_nlb s2 ∧
      (s2.pending = 0 → s2.i = nrequests ns nlb) := by
  obtain ⟨h1, h2, h3, h4⟩ := hinv
  rw [trStep] at hstep
  split at hstep
  · exact Except.noConfusion hstep
  · exact Except.noConfusion hstep
  · rw [Except.ok.injEq] at hstep
    subst hstep
    exact ⟨⟨h1, h2, h3, h4⟩, fun hz => by simp at hz; omega⟩
  · dsimp only at hstep
    by_cases hpoll0 : pollRes s.pollCount = 0
    · rw [if_pos hpoll0] at hstep
      by_cases hlt : s.i < nrequests ns nlb
      · rw [if_pos hlt] at hstep
        rw [Except.ok.injEq] at hstep
        subst hstep
        constructor
        · exact TRInvCore_read_step ns slba nlb config_nlb s _
            ⟨h1, h2, h3, h4⟩ hlt (by simp) (by simp) (by simp)
        · intro hz; simp at hz; omega
      · rw [if_neg hlt] at hstep
        rw [Except.ok.injEq] at hstep
        subst hstep
        exact ⟨⟨by simpa using h1, by simpa using h2, by simpa using h3,
          by simpa using h4⟩, fun _ => by simp; omega⟩
    · rw [if_neg hpoll0] at hstep
      rw [Except.ok.injEq] at hstep
      subst hstep
      exact ⟨⟨by simpa using h1, by simpa using h2, by simpa using h3,
        by simpa using h4⟩, fun hz => by simp at hz; omega⟩

/-- Any successful run of the poll loop, started from an invariant state
with at least one pending descriptor, ends with all `nrequests`
submissions made, the trace being the config write followed by all
`nrequests - 1` reads. -/
lemma pollLoop_ok (ns : UnvmeNs) (subOk : Nat → Bool) (pollRes : Nat → Int)
    (slba nlb config_nlb maxj : Nat) :
    ∀ (fuel : Nat) (s sE : TRState), TRInvCore ns slba nlb config_nlb s →
      1 ≤ s.pending →
      pollLoop ns subOk pollRes (nrequests ns nlb) slba nlb maxj fuel s =
        .ok sE →
      sE.trace = expectedTrace ns slba nlb config_nlb (nrequests ns nlb - 1) := by
  intro fuel
  induction fuel with
  | zero => intro s sE _ _ hrun; exact Except.noConfusion hrun
  | succ n ih =>
    intro s sE hinv hp hrun
    rw [pollLoop] at hrun
    cases hstep : trStep ns subOk pollRes (nrequests ns nlb) slba nlb maxj s with
    | error e => rw [hstep] at hrun; exact Except.noConfusion hrun
    | ok s2 =>
      rw [hstep] at hrun
      dsimp only at hrun
      obtain ⟨hinv2, hdone⟩ := trStep_inv ns subOk pollRes slba nlb config_nlb
        maxj s s2 hinv hp hstep
      by_cases hpend : 0 < s2.pending
      · rw [if_pos hpend] at hrun
        exact ih s2 sE hinv2 hpend hrun
      · rw [if_neg hpend] at hrun
        rw [Except.ok.injEq] at hrun
        subst hrun
        have hi : s2.i = nrequests ns nlb := hdone (by omega)
        have htr := hinv2.2.2.2
        rw [hi] at htr
        exact htr

/-- The state at entry to the do-while loop satisfies the invariant and
has at least one pending descriptor. -/
lemma startState_inv (ns : UnvmeNs) (subOk : Nat → Bool)
    (slba nlb config_nlb : Nat) :
    TRInvCore ns slba nlb config_nlb
        (startState ns subOk slba nlb config_nlb) ∧
      1 ≤ (startState ns subOk slba nlb config_nlb).pending := by
  have hinit : TRInvCore ns slba nlb config_nlb
      (initState ns subOk slba config_nlb) := by
    refine ⟨le_refl 1, Nat.le_add_left 1 _, by simp [initState, doSubmit], ?_⟩
    simp [initState, doSubmit, expectedTrace]
  have hfill := fillLoop_inv ns subOk slba nlb config_nlb ns.maxiopq _ hinit
  obtain ⟨a, b, c, d⟩ := hfill
  exact ⟨⟨a, b, c, d⟩, a⟩

/-- `ceilDiv` agrees with the `a / b + !!(a % b)` idiom of the C code. -/
lemma ceilDiv_spec (a b : Nat) (hb : 1 ≤ b) :
    ceilDiv a b = a / b + (if a % b = 0 then 0 else 1) := by
  have hmod := Nat.div_add_mod a b
  have hlt : a % b < b := Nat.mod_lt a hb
  by_cases hr : a % b = 0
  · rw [if_pos hr]
    unfold ceilDiv
    have h2 : a + b - 1 = (b - 1) + b * (a / b) := by omega
    rw [h2, Nat.add_mul_div_left _ _ (show 0 < b by omega),
      Nat.div_eq_of_lt (show b - 1 < b by omega)]
    omega
  · rw [if_neg hr]
    unfold ceilDiv
    have h3 : b * (a / b + 1) = b * (a / b) + b := by ring
    have h2 : a + b - 1 = (a % b - 1) + b * (a / b + 1) := by omega
    rw [h2, Nat.add_mul_div_left _ _ (show 0 < b by omega),
      Nat.div_eq_of_lt (show a % b - 1 < b by omega)]
    omega

/-- The request count of line 266 is the specification's
`ceil(nlb / maxbpio) + 1`. -/
lemma nrequests_eq (ns : UnvmeNs) (nlb : Nat) (hb : 1 ≤ ns.maxbpio) :
    nrequests ns nlb = ceilDiv nlb ns.maxbpio + 1 := by
  rw [ceilDiv_spec nlb ns.maxbpio hb]; rfl

lemma sum_map_const (c : Nat) :
    ∀ n : Nat, ((List.range n).map (fun _ => c)).sum = n * c := by
  intro n
  induction n with
  | zero => simp
  | succ m ih =>
    rw [List.range_succ, List.map_append, List.sum_append, ih]
    simp
    ring

/-- The block counts of the reads submitted by `unvme_translate_region`:
`maxbpio` for every read but the last, and `nlb mod maxbpio` for the last
when `nlb` is not a multiple of `maxbpio`. -/
lemma readSeq_shape (ns : UnvmeNs) (nlb : Nat) (hb : 1 ≤ ns.maxbpio) :
    (List.range (ceilDiv nlb ns.maxbpio)).map
        (fun k => readNlb ns (nrequests ns nlb) nlb (k + 1)) =
      (List.range (ceilDiv nlb ns.maxbpio)).map
        (fun k => if k + 1 < ceilDiv nlb ns.maxbpio ∨ nlb % ns.maxbpio = 0
                  then ns.maxbpio else nlb % ns.maxbpio) := by
  apply List.map_congr_left
  intro k hk
  have hk2 : k < ceilDiv nlb ns.maxbpio := List.mem_range.mp hk
  have hnr : nrequests ns nlb - 1 = ceilDiv nlb ns.maxbpio := by
    rw [nrequests_eq ns nlb hb]; omega
  by_cases hr : nlb % ns.maxbpio = 0
  · simp [readNlb, hr]
  · simp only [readNlb]
    by_cases hlast : k + 1 < ceilDiv nlb ns.maxbpio
    · rw [if_neg (by rw [hnr]; rintro ⟨hx, _⟩; omega), if_pos (Or.inl hlast)]
    · rw [if_pos ⟨by rw [hnr]; omega, hr⟩, if_neg (by tauto)]

/-- The block counts of the submitted reads sum to `nlb`. -/
lemma readSeq_sum (ns : UnvmeNs) (nlb : Nat) (hb : 1 ≤ ns.maxbpio) :
    ((List.range (ceilDiv nlb ns.maxbpio)).map
      (fun k => readNlb ns (nrequests ns nlb) nlb (k + 1))).sum = nlb := by
  have hnr : nrequests ns nlb - 1 = ceilDiv nlb ns.maxbpio := by
    rw [nrequests_eq ns nlb hb]; omega
  by_cases hr : nlb % ns.maxbpio = 0
  · have hceil : ceilDiv nlb ns.maxbpio = nlb / ns.maxbpio := by
      rw [ceilDiv_spec _ _ hb, if_pos hr]
      omega
    have hmap : (List.range (ceilDiv nlb ns.maxbpio)).map
        (fun k => readNlb ns (nrequests ns nlb) nlb (k + 1)) =
        (List.range (ceilDiv nlb ns.maxbpio)).map (fun _ => ns.maxbpio) := by
      apply List.map_congr_left
      intro k _
      simp [readNlb, hr]
    rw [hmap, sum_map_const, hceil]
    exact Nat.div_mul_cancel (Nat.dvd_of_mod_eq_zero hr)
  · have hceil : ceilDiv nlb ns.maxbpio = nlb / ns.maxbpio + 1 := by
      rw [ceilDiv_spec _ _ hb, if_neg hr]
    rw [hceil, List.range_succ, List.map_append, List.sum_append]
    have hmap : (List.range (nlb / ns.maxbpio)).map
        (fun k => readNlb ns (nrequests ns nlb) nlb (k + 1)) =
        (List.range (nlb / ns.maxbpio)).map (fun _ => ns.maxbpio) := by
      apply List.map_congr_left
      intro k hk
      have hk2 : k < nlb / ns.maxbpio := List.mem_range.mp hk
      simp only [readNlb]
      rw [if_neg (by rw [hnr, hceil]; rintro ⟨hx, _⟩; omega)]
    rw [hmap, sum_map_const]
    have hlast : readNlb ns (nrequests ns nlb) nlb (nlb / ns.maxbpio + 1) =
        nlb % ns.maxbpio := by
      simp only [readNlb]
      rw [if_pos ⟨by rw [hnr, hceil], hr⟩]
    simp only [List.map_cons, List.map_nil, List.sum_cons, List.sum_nil, hlast]
    have := Nat.div_add_mod nlb ns.maxbpio
    have h2 : ns.maxbpio * (nlb / ns.maxbpio) = nlb / ns.maxbpio * ns.maxbpio :=
      Nat.mul_comm _ _
    omega

/-- C1: the claim fails on the code and the code is the slip: at the
specification's own S5 scenario (`nlb = 1024`, `maxbpio = 256`,
`maxiopq = 4`, every submission succeeding and every poll completing OK),
line 284 computes `maxj = min(maxbpio, nrequests) = 5` although the
`desc` window has only `maxiopq = 4` entries, so the round-robin index
`j` reaches 4 and `desc[4]` is read out of bounds - the poll index is
not always strictly less than `maxiopq`. -/
theorem translate_region_window_overrun :
    maxjVal ⟨256, 4, 1⟩ 1024 = 5 ∧
    (⟨256, 4, 1⟩ : UnvmeNs).maxiopq = 4 ∧
    unvme_translate_region ⟨256, 4, 1⟩ (fun _ => true) (fun _ => 0)
      0 1024 1 32 = .error .oob :=
  ⟨rfl, rfl, rfl⟩

/-- C2: for every terminating (normally returning) execution of
`unvme_translate_region` with `nlb ≥ 1` and `maxbpio ≥ 1`: the request
count equals `ceil(nlb / maxbpio) + 1`; the submission trace is the
config-page write followed by exactly `ceil(nlb / maxbpio)` reads, each a
vendor-extended read with config flag 1, of `maxbpio` blocks except the
last which is `nlb mod maxbpio` blocks when `nlb` is not a multiple of
`maxbpio`; the reads' block counts sum to `nlb`; and the return value is
0. -/
theorem translate_region_requests (ns : UnvmeNs) (subOk : Nat → Bool)
    (pollRes : Nat → Int) (slba nlb config_nlb fuel : Nat) (r : Int)
    (tr : List SubEvent) (h1 : 1 ≤ nlb) (hb : 1 ≤ ns.maxbpio)
    (hrun : unvme_translate_region ns subOk pollRes slba nlb config_nlb fuel =
      .ok (r, tr)) :
    nrequests ns nlb = ceilDiv nlb ns.maxbpio + 1 ∧
    tr = ⟨NVME_CMD_WRITE, 0, slba, config_nlb, 1⟩ ::
      (List.range (ceilDiv nlb ns.maxbpio)).map
        (fun k => expectedRead ns (nrequests ns nlb) slba nlb (k + 1)) ∧
    tr.length = ceilDiv nlb ns.maxbpio + 1 ∧
    (∀ e ∈ tr.tail, e.opc = NVME_CMD_READ ∧ e.flag = 1) ∧
    tr.tail.map SubEvent.nlb =
      (List.range (ceilDiv nlb ns.maxbpio)).map
        (fun k => if k + 1 < ceilDiv nlb ns.maxbpio ∨ nlb % ns.maxbpio = 0
                  then ns.maxbpio else nlb % ns.maxbpio) ∧
    (tr.tail.map SubEvent.nlb).sum = nlb ∧
    r = 0 := by
  rw [unvme_translate_region] at hrun
  cases hpoll : pollLoop ns subOk pollRes (nrequests ns nlb) slba nlb
      (maxjVal ns nlb) fuel (startState ns subOk slba nlb config_nlb) with
  | error e => rw [hpoll] at hrun; exact Except.noConfusion hrun
  | ok sE =>
    rw [hpoll] at hrun
    dsimp only at hrun
    rw [Except.ok.injEq, Prod.mk.injEq] at hrun
    obtain ⟨hr0, htr⟩ := hrun
    obtain ⟨hinvS, hpendS⟩ := startState_inv ns subOk slba nlb config_nlb
    have htrace := pollLoop_ok ns subOk pollRes slba nlb config_nlb
      (maxjVal ns nlb) fuel _ sE hinvS hpendS hpoll
    have hnr : nrequests ns nlb - 1 = ceilDiv nlb ns.maxbpio := by
      rw [nrequests_eq ns nlb hb]; omega
    have htr2 : tr = expectedTrace ns slba nlb config_nlb
        (ceilDiv nlb ns.maxbpio) := by
      rw [← htr, htrace, hnr]
    have hcomp : SubEvent.nlb ∘
        (fun k => expectedRead ns (nrequests ns nlb) slba nlb (k + 1)) =
        fun k => readNlb ns (nrequests ns nlb) nlb (k + 1) := rfl
    refine ⟨nrequests_eq ns nlb hb, ?_, ?_, ?_, ?_, ?_, hr0.symm⟩
    · rw [htr2]; rfl
    · rw [htr2]; simp [expectedTrace]
    · rw [htr2]
      intro e he
      rw [show (expectedTrace ns slba nlb config_nlb
        (ceilDiv nlb ns.maxbpio)).tail = (List.range (ceilDiv nlb ns.maxbpio)).map
        (fun k => expectedRead ns (nrequests ns nlb) slba nlb (k + 1)) from rfl]
        at he
      rw [List.mem_map] at he
      obtain ⟨k, _, hke⟩ := he
      rw [← hke]
      exact ⟨rfl, rfl⟩
    · rw [htr2]
      rw [show (expectedTrace ns slba nlb config_nlb
        (ceilDiv nlb ns.maxbpio)).tail = (List.range (ceilDiv nlb ns.maxbpio)).map
        (fun k => expectedRead ns (nrequests ns nlb) slba nlb (k + 1)) from rfl]
      rw [List.map_map, hcomp]
      exact readSeq_shape ns nlb hb
    · rw [htr2]
      rw [show (expectedTrace ns slba nlb config_nlb
        (ceilDiv nlb ns.maxbpio)).tail = (List.range (ceilDiv nlb ns.maxbpio)).map
        (fun k => expectedRead ns (nrequests ns nlb) slba nlb (k + 1)) from rfl]
      rw [List.map_map, hcomp]
      exact readSeq_sum ns nlb hb

/-- Witness for C2 at the concrete input `ns = (maxbpio 2, maxiopq 2,
blocksize 1)`, `nlb = 3`: the hypotheses hold and the request-count
conclusion is obtained from the theorem. -/
theorem translate_region_requests_witness :
    1 ≤ 3 ∧ 1 ≤ (⟨2, 2, 1⟩ : UnvmeNs).maxbpio ∧
    unvme_translate_region ⟨2, 2, 1⟩ (fun _ => true) (fun _ => 0) 0 3 1 20 =
      .ok (0, [⟨1, 0, 0, 1, 1⟩, ⟨2, 0, 0, 2, 1⟩, ⟨2, 2, 0, 1, 1⟩]) ∧
    nrequests ⟨2, 2, 1⟩ 3 = ceilDiv 3 2 + 1 :=
  ⟨by decide, by decide, rfl,
   (translate_region_requests ⟨2, 2, 1⟩ (fun _ => true) (fun _ => 0) 0 3 1 20 0
     [⟨1, 0, 0, 1, 1⟩, ⟨2, 0, 0, 2, 1⟩, ⟨2, 2, 0, 1, 1⟩]
     (by decide) (by decide) rfl).1⟩

/-- C10: every normally terminating execution of
`unvme_translate_region` returns 0, whatever the submission and poll
outcomes were; and a failed submission is never detected: at a concrete
input whose config-page write submission fails (returns NULL), the
function never reports an error - it spins forever (fuel exhaustion for
every fuel), because the NULL slot can never decrement `pending`. -/
theorem translate_region_always_returns_zero :
    (∀ (ns : UnvmeNs) (subOk : Nat → Bool) (pollRes : Nat → Int)
        (slba nlb config_nlb fuel : Nat) (r : Int) (tr : List SubEvent),
      unvme_translate_region ns subOk pollRes slba nlb config_nlb fuel =
        .ok (r, tr) → r = 0) ∧
    (∀ fuel : Nat,
      unvme_translate_region ⟨1, 1, 1⟩ (fun _ => false) (fun _ => 0)
        0 1 1 fuel = .error .fuelOut) := by
  constructor
  · intro ns subOk pollRes slba nlb config_nlb fuel r tr hrun
    rw [unvme_translate_region] at hrun
    cases hpoll : pollLoop ns subOk pollRes (nrequests ns nlb) slba nlb
        (maxjVal ns nlb) fuel (startState ns subOk slba nlb config_nlb) with
    | error e => rw [hpoll] at hrun; exact Except.noConfusion hrun
    | ok sE =>
      rw [hpoll] at hrun
      dsimp only at hrun
      rw [Except.ok.injEq, Prod.mk.injEq] at hrun
      exact hrun.1.symm
  · intro fuel
    have key : ∀ f : Nat,
        pollLoop ⟨1, 1, 1⟩ (fun _ => false) (fun _ => 0)
          (nrequests ⟨1, 1, 1⟩ 1) 0 1 (maxjVal ⟨1, 1, 1⟩ 1) f
          (startState ⟨1, 1, 1⟩ (fun _ => false) 0 1 1) = .error .fuelOut := by
      intro f
      induction f with
      | zero => rfl
      | succ n ih =>
        rw [pollLoop]
        rw [show trStep ⟨1, 1, 1⟩ (fun _ => false) (fun _ => 0)
          (nrequests ⟨1, 1, 1⟩ 1) 0 1 (maxjVal ⟨1, 1, 1⟩ 1)
          (startState ⟨1, 1, 1⟩ (fun _ => false) 0 1 1) =
          .ok (startState ⟨1, 1, 1⟩ (fun _ => false) 0 1 1) from rfl]
        dsimp only
        rw [if_pos (show 0 <
          (startState ⟨1, 1, 1⟩ (fun _ => false) 0 1 1).pending by decide)]
        exact ih
    rw [unvme_translate_region, key fuel]

/-- Witness for C10 at a concrete successful run (`slba = 5`,
`nlb = 3`): the run hypothesis is discharged by evaluation and the
theorem yields the return value 0. -/
theorem translate_region_always_returns_zero_witness : (0 : Int) = 0 :=
  translate_region_always_returns_zero.1 ⟨2, 2, 1⟩ (fun _ => true)
    (fun _ => 0) 5 3 1 20 0
    [⟨1, 0, 5, 1, 1⟩, ⟨2, 0, 5, 2, 1⟩, ⟨2, 2, 5, 1, 1⟩] rfl

/-- C3: `unvme_apoll` returns 0 when the command completed OK within the
timeout, the positive device status code when it completed with an error,
and -1 on timeout; on any non-timeout return the IOD is freed, while on
timeout the descriptor is unchanged (its slot stays reserved) and a later
re-poll of the same IOD can still return the completion. Settled against
the spec-modelled `unvme_do_poll` (its body is in `unvme_core.c`, not
among the sources). -/
theorem apoll_status_contract (iod : Iod) (timeout : Nat) :
    ((unvme_apoll iod timeout (some 0)).1 = 0 ∧
      (unvme_apoll iod timeout (some 0)).2.reserved = false) ∧
    (∀ st : Nat, 0 < st →
      (unvme_apoll iod timeout (some st)).1 = (st : Int) ∧
      0 < (unvme_apoll iod timeout (some st)).1 ∧
      (unvme_apoll iod timeout (some st)).2.reserved = false) ∧
    ((unvme_apoll iod timeout none).1 = -1 ∧
      (unvme_apoll iod timeout none).2 = iod) ∧
    (∀ st : Nat,
      (unvme_apoll (unvme_apoll iod timeout none).2 timeout (some st)).1 =
        (st : Int)) := by
  refine ⟨⟨rfl, rfl⟩, ?_, ⟨rfl, rfl⟩, fun st => rfl⟩
  intro st hst
  refine ⟨rfl, ?_, rfl⟩
  show (0 : Int) < (st : Int)
  exact_mod_cast hst

/-- Witness for C3: a reserved IOD polled when the device completed with
error status 3 yields return value 3. -/
theorem apoll_status_contract_witness :
    0 < 3 ∧ (unvme_apoll ⟨true⟩ 5 (some 3)).1 = (3 : Int) :=
  ⟨by decide, ((apoll_status_contract ⟨true⟩ 5).2.1 3 (by decide)).1⟩

/-- C4: each synchronous operation equals the corresponding asynchronous
submission followed by one poll with the default timeout `UNVME_TIMEOUT`;
and when the submission returns no descriptor, the synchronous call
returns -1 for every possible poll function, i.e. without polling. -/
theorem sync_ops_refine_async {Ns Buf Desc : Type}
    (unvme_rw : Ns → Int → Nat → Buf → Nat → Nat → Option Desc)
    (unvme_aflush : Ns → Int → Option Desc)
    (doPoll : Desc → Nat → Int)
    (ns : Ns) (qid : Int) (buf : Buf) (slba nlb : Nat) :
    unvme_read unvme_rw doPoll ns qid buf slba nlb =
      syncOfAsync (unvme_aread unvme_rw ns qid buf slba nlb) doPoll ∧
    unvme_write unvme_rw doPoll ns qid buf slba nlb =
      syncOfAsync (unvme_awrite unvme_rw ns qid buf slba nlb) doPoll ∧
    unvme_flush unvme_aflush doPoll ns qid =
      syncOfAsync (unvme_aflush ns qid) doPoll ∧
    (unvme_rw ns qid NVME_CMD_READ buf slba nlb = none →
      ∀ p2 : Desc → Nat → Int,
        unvme_read unvme_rw p2 ns qid buf slba nlb = -1) ∧
    (unvme_rw ns qid NVME_CMD_WRITE buf slba nlb = none →
      ∀ p2 : Desc → Nat → Int,
        unvme_write unvme_rw p2 ns qid buf slba nlb = -1) ∧
    (unvme_aflush ns qid = none →
      ∀ p2 : Desc → Nat → Int, unvme_flush unvme_aflush p2 ns qid = -1) := by
  refine ⟨rfl, rfl, rfl, ?_, ?_, ?_⟩
  · intro h p2; rw [unvme_read, h]
  · intro h p2; rw [unvme_write, h]
  · intro h p2; rw [unvme_flush, h]

/-- Witness for C4: with a submission layer that always fails,
`unvme_read` returns -1 for an arbitrary poll function. -/
theorem sync_ops_refine_async_witness :
    unvme_read (fun (_ : Unit) (_ : Int) (_ : Nat) (_ : Unit) (_ _ : Nat) =>
      (none : Option Unit)) (fun _ _ => 7) () 0 () 0 1 = -1 :=
  (sync_ops_refine_async (fun _ _ _ _ _ _ => (none : Option Unit))
    (fun _ _ => (none : Option Unit)) (fun _ _ => 7) () 0 () 0 1).2.2.2.1
    rfl (fun _ _ => 7)

/-- C5: with valid qcount/qsize, a PCI name matching neither `sscanf`
format yields NULL (and, the model being a pure function of its
arguments, no state change); a name matching only the suffix-free format
is opened with the default nsid 1; a parsed name is opened with the
parsed nsid unchanged and bus/device/function packed as
`(b << 16) + (d << 8) + f`, a packing that is injective on 8-bit
bus/device/function values. -/
theorem openq_parse_contract (pciname : List Char) (qcount qsize : Int)
    (hqc : 0 ≤ qcount) (hqs : 0 ≤ qsize) (hq1 : qsize ≠ 1) :
    (sscanfPci4 pciname = none → sscanfPci3 pciname = none →
      unvme_openq pciname qcount qsize = .badPci) ∧
    (∀ b d f : Nat, sscanfPci4 pciname = none →
      sscanfPci3 pciname = some (b, d, f) →
      unvme_openq pciname qcount qsize =
        .opened (pciPack b d f) 1 qcount qsize) ∧
    (∀ b d f n : Nat, sscanfPci4 pciname = some (b, d, f, n) →
      unvme_openq pciname qcount qsize =
        .opened (pciPack b d f) n qcount qsize) ∧
    (∀ b d f b2 d2 f2 : Nat, b < 256 → d < 256 → f < 256 → b2 < 256 →
      d2 < 256 → f2 < 256 → pciPack b d f = pciPack b2 d2 f2 →
      b = b2 ∧ d = d2 ∧ f = f2) := by
  have hval : ¬ (qcount < 0 ∨ qsize < 0 ∨ qsize = 1) := by
    push_neg
    exact ⟨by omega, by omega, hq1⟩
  refine ⟨?_, ?_, ?_, ?_⟩
  · intro h4 h3; rw [unvme_openq, if_neg hval, h4, h3]
  · intro b d f h4 h3; rw [unvme_openq, if_neg hval, h4, h3]
  · intro b d f n h4; rw [unvme_openq, if_neg hval, h4]
  · intro b d f b2 d2 f2 hb hd hf hb2 hd2 hf2 hpack
    unfold pciPack at hpack
    have h32 : (2 : Nat) ^ 32 = 4294967296 := by norm_num
    rw [h32, Nat.mod_eq_of_lt (by omega), Nat.mod_eq_of_lt (by omega)] at hpack
    refine ⟨by omega, by omega, by omega⟩

/-- Witness for C5: `01:00.0/2` parses with nsid 2 and is opened with the
packed pci value `0x10000`. -/
theorem openq_parse_contract_witness :
    0 ≤ (4 : Int) ∧ (8 : Int) ≠ 1 ∧
    unvme_openq samplePci4 4 8 = .opened 65536 2 4 8 :=
  ⟨by decide, by decide,
   (openq_parse_contract samplePci4 4 8 (by decide) (by decide)
      (by decide)).2.2.1 1 0 0 2 (by decide)⟩

/-- C6: `unvme_open` returns exactly the result of `unvme_openq` with
`qcount = 0` and `qsize = 0` (the clamping of those defaults against the
controller maxima happens inside the external `unvme_do_open`). -/
theorem open_refines_openq :
    ∀ pciname : List Char, unvme_open pciname = unvme_openq pciname 0 0 :=
  fun _ => rfl

/-- C7: `unvme_atranslate` makes exactly one vendor-extended submission,
a write of 1 block with config-page flag 1; `unvme_atranslate_read` makes
exactly one vendor-extended submission, a read of `nlb` blocks with
config-page flag 1. -/
theorem atranslate_submissions {Ns Buf Desc : Type}
    (unvme_rw_extended : Ns → Int → Nat → Buf → Nat → Nat → Nat → Option Desc)
    (ns : Ns) (qid : Int) (buf : Buf) (slba nlb : Nat) :
    unvme_atranslate unvme_rw_extended ns qid buf slba =
      unvme_rw_extended ns qid NVME_CMD_WRITE buf slba 1 1 ∧
    unvme_atranslate_read unvme_rw_extended ns qid buf slba nlb =
      unvme_rw_extended ns qid NVME_CMD_READ buf slba nlb 1 :=
  ⟨rfl, rfl⟩

/-- C9: `unvme_openq` returns NULL whenever `qcount < 0`, `qsize < 0` or
`qsize = 1`, and does so identically for every PCI name (the name is
never parsed and no device state is touched); all other non-negative
qcount/qsize values pass the validation. -/
theorem openq_validation_contract (pciname : List Char) (qcount qsize : Int) :
    ((qcount < 0 ∨ qsize < 0 ∨ qsize = 1) →
      unvme_openq pciname qcount qsize = .rejected) ∧
    ((qcount < 0 ∨ qsize < 0 ∨ qsize = 1) →
      ∀ other : List Char,
        unvme_openq other qcount qsize = unvme_openq pciname qcount qsize) ∧
    (0 ≤ qcount → 0 ≤ qsize → qsize ≠ 1 →
      unvme_openq pciname qcount qsize ≠ .rejected) := by
  refine ⟨?_, ?_, ?_⟩
  · intro h; rw [unvme_openq, if_pos h]
  · intro h other; rw [unvme_openq, if_pos h, unvme_openq, if_pos h]
  · intro h1 h2 h3
    have hval : ¬ (qcount < 0 ∨ qsize < 0 ∨ qsize = 1) := by
      push_neg
      exact ⟨by omega, by omega, h3⟩
    rw [unvme_openq, if_neg hval]
    cases h4 : sscanfPci4 pciname with
    | some v =>
      obtain ⟨b, d, f, n⟩ := v
      exact fun hc => OpenResult.noConfusion hc
    | none =>
      cases h5 : sscanfPci3 pciname with
      | some v =>
        obtain ⟨b, d, f⟩ := v
        exact fun hc => OpenResult.noConfusion hc
      | none =>
        exact fun hc => OpenResult.noConfusion hc

/-- Witness for C9: queue size exactly 1 is rejected. -/
theorem openq_validation_contract_witness :
    ((4 : Int) < 0 ∨ (1 : Int) < 0 ∨ (1 : Int) = 1) ∧
    unvme_openq samplePci3 4 1 = .rejected :=
  ⟨Or.inr (Or.inr rfl),
   (openq_validation_contract samplePci3 4 1).1 (Or.inr (Or.inr rfl))⟩

/-- A successful `parseArgInt` returns exactly the `strtol` value of the
string. -/
lemma parseArgInt_val (a : String) (v : Int) (h : parseArgInt a = some v) :
    v = (strtol0 a.toList).1 := by
  rw [parseArgInt] at h
  split at h
  · rw [Option.some.injEq] at h
    exact h.symm
  · exact Option.noConfusion h

/-- Setting one list entry leaves `getD` at any other index unchanged. -/
lemma getD_set_ne (l : List String) (i j : Nat) (x d : String)
    (hne : i ≠ j) : (l.set i x).getD j d = l.getD j d := by
  induction l generalizing i j with
  | nil => rfl
  | cons a t ih =>
    cases i with
    | zero =>
      cases j with
      | zero => omega
      | succ j2 => rfl
    | succ i2 =>
      cases j with
      | zero => rfl
      | succ j2 =>
        show (t.set i2 x).getD j2 d = t.getD j2 d
        exact ih i2 j2 (by omega)

/-- C8: in the set-features test, the `res` value passed by pointer into
the features admin command is parsed from `argv[3]` (the FEATURE_ID
argument), so the whole run is independent of `argv[4]` (the FEATURE_ARG
argument, which is never read), and `res` after the call is the device
reply (per the command's definition, `res` is an OUT parameter only). -/
theorem set_features_res_from_fid_arg :
    (∀ (argv : List String) (reply : Nat) (nsid fid : Int) (r0 r1 : Nat),
      set_features_main argv reply = some (nsid, fid, r0, r1) →
      r0 = ((strtol0 (argv.getD 3 emptyArg).toList).1 % (2 ^ 32 : Int)).toNat ∧
      r1 = reply) ∧
    (∀ (argv : List String) (x : String) (reply : Nat),
      set_features_main (argv.set 4 x) reply = set_features_main argv reply) := by
  constructor
  · intro argv reply nsid fid r0 r1 h
    rw [set_features_main] at h
    by_cases hlen : argv.length < 5
    · rw [if_pos hlen] at h
      exact Option.noConfusion h
    · rw [if_neg hlen] at h
      cases h2 : parseArgInt (argv.getD 2 emptyArg) with
      | none => rw [h2] at h; exact Option.noConfusion h
      | some nsidv =>
        rw [h2] at h
        dsimp only at h
        cases h3 : parseArgInt (argv.getD 3 emptyArg) with
        | none => rw [h3] at h; exact Option.noConfusion h
        | some fidv =>
          rw [h3] at h
          dsimp only at h
          by_cases hr : fidv < (NVME_FEATURE_ARBITRATION : Int) ∨
              (NVME_FEATURE_ASYNC_EVENT : Int) < fidv ∨
              fidv = (NVME_FEATURE_LBA_RANGE : Int)
          · rw [if_pos hr] at h
            exact Option.noConfusion h
          · rw [if_neg hr] at h
            simp only [Option.some.injEq, Prod.mk.injEq] at h
            obtain ⟨e1, e2, e3, e4⟩ := h
            rw [← e3, ← e4]
            exact ⟨by rw [parseArgInt_val _ _ h3], rfl⟩
  · intro argv x reply
    rw [set_features_main, set_features_main, List.length_set,
      getD_set_ne argv 4 2 x emptyArg (by omega),
      getD_set_ne argv 4 3 x emptyArg (by omega)]

/-- Witness for C8 at the concrete command line: `res` before the call is
the FEATURE_ID value 6 (not the FEATURE_ARG value 99), and after the call
it is the device reply 42. -/
theorem set_features_res_from_fid_arg_witness :
    set_features_main sampleArgv 42 = some (1, 6, 6, 42) ∧
    (6 : Nat) =
      ((strtol0 (sampleArgv.getD 3 emptyArg).toList).1 % (2 ^ 32 : Int)).toNat ∧
    (42 : Nat) = 42 :=
  ⟨rfl,
   (set_features_res_from_fid_arg.1 sampleArgv 42 1 6 6 42 rfl).1,
   (set_features_res_from_fid_arg.1 sampleArgv 42 1 6 6 42 rfl).2⟩
